import Mathlib

/-!
# Verification of the gemma-ft fine-tuning notebook

Shallow embedding of `src/gemma-2b_FT.ipynb` (a linear orchestration script:
dataset transformation, train/validation/test split, LoRA target-module
discovery, supervised fine-tuning configuration, save/merge, and a qualitative
generation helper), together with proofs of the specification's claims about it.

Machine integers do not occur in the embedded fragments (Python integers are
unbounded); strings are modelled by `String` / `List Char`; Python exceptions
are modelled by `Except`; file writes are modelled as explicit records of the
path and the content written.
-/

namespace GemmaFT

/-! ## §4.2 of the notebook: LoRA target-module discovery

Embedding of

```python
def find_all_linear_names(model):
    cls = bnb.nn.Linear4bit
    lora_module_names = set()
    for name, module in model.named_modules():
        if isinstance(module, cls):
            names = name.split('.')
            lora_module_names.add(names[0] if len(names) == 1 else names[-1])
        if 'lm_head' in lora_module_names:
            lora_module_names.remove('lm_head')

    return list(lora_module_names)
```

`model.named_modules()` yields a finite sequence of (dotted name, module)
pairs; all that `find_all_linear_names` inspects about the module object is
whether `isinstance(module, bnb.nn.Linear4bit)` holds, so a named module is
embedded as a name paired with its kind.  The Python `set` is embedded as a
duplicate-free list (insertion order; the claims below are order-insensitive).
-/

/-- The concrete class of a sublayer, as far as `isinstance` checks in the
notebook can distinguish it.  `linear4bit` stands for `bnb.nn.Linear4bit`. -/
inductive ModuleKind where
  | linear4bit
  | other
  deriving DecidableEq, Repr

/-- One entry of `model.named_modules()`: the dotted module name and the
module's concrete kind. -/
structure NamedModule where
  name : String
  kind : ModuleKind
  deriving DecidableEq, Repr

/-- `isinstance(module, bnb.nn.Linear4bit)`. -/
def isLinear4bit (m : NamedModule) : Bool :=
  m.kind = ModuleKind.linear4bit

/-- Python `set.add`: append the element unless already present (the embedded
set is a duplicate-free list). -/
def pySetAdd (s : List String) (x : String) : List String :=
  if x ∈ s then s else s ++ [x]

/-- `names[0] if len(names) == 1 else names[-1]` applied to
`names = name.split('.')`: the last dot-separated segment of the name (which
is also the first when there is no dot).  `String.splitOn` agrees with
Python `str.split` with an explicit separator on every input, and never
returns an empty list. -/
def lastSegment (name : String) : String :=
  let names := name.splitOn "."
  if names.length = 1 then names.headD "" else names.getLastD ""

/-- The loop body of `find_all_linear_names`, iterated over the remaining
named modules with accumulator `lora_module_names`. -/
def famlnLoop : List NamedModule → List String → List String
  | [], acc => acc
  | m :: rest, acc =>
      let acc1 := if isLinear4bit m then pySetAdd acc (lastSegment m.name) else acc
      let acc2 := if "lm_head" ∈ acc1 then acc1.erase "lm_head" else acc1
      famlnLoop rest acc2

/-- `find_all_linear_names(model)`. -/
def find_all_linear_names (model : List NamedModule) : List String :=
  famlnLoop model []

/-! ### Invariants of the discovery loop -/

/-- The state the loop accumulator satisfies after processing a prefix `done`
of the module list: no duplicates, no `lm_head`, and membership is exactly
"last segment of some 4-bit linear module seen so far, other than lm_head". -/
def famlnInv (done : List NamedModule) (acc : List String) : Prop :=
  acc.Nodup ∧ "lm_head" ∉ acc ∧
    ∀ s, s ∈ acc ↔
      (s ≠ "lm_head" ∧ ∃ m ∈ done, isLinear4bit m = true ∧ lastSegment m.name = s)

theorem pySetAdd_nodup {s : List String} (h : s.Nodup) (x : String) :
    (pySetAdd s x).Nodup := by
  unfold pySetAdd
  split
  · exact h
  · simpa [List.nodup_append] using ⟨h, by assumption⟩

theorem mem_pySetAdd {s : List String} {x y : String} :
    y ∈ pySetAdd s x ↔ y ∈ s ∨ y = x := by
  unfold pySetAdd
  split
  · rename_i hx
    constructor
    · exact Or.inl
    · rintro (h | rfl)
      · exact h
      · exact hx
  · simp

/-- One step of the loop preserves the invariant. -/
theorem famlnInv_step {done : List NamedModule} {acc : List String}
    (h : famlnInv done acc) (m : NamedModule) :
    famlnInv (done ++ [m])
      (if "lm_head" ∈ (if isLinear4bit m then pySetAdd acc (lastSegment m.name) else acc)
       then (if isLinear4bit m then pySetAdd acc (lastSegment m.name) else acc).erase "lm_head"
       else (if isLinear4bit m then pySetAdd acc (lastSegment m.name) else acc)) := by
  obtain ⟨hnd, hnhead, hmem⟩ := h
  set acc1 := if isLinear4bit m then pySetAdd acc (lastSegment m.name) else acc with hacc1
  have hnd1 : acc1.Nodup := by
    rw [hacc1]; split
    · exact pySetAdd_nodup hnd _
    · exact hnd
  have hmem1 : ∀ s, s ∈ acc1 ↔
      (s ∈ acc ∨ (isLinear4bit m = true ∧ lastSegment m.name = s)) := by
    intro s
    rw [hacc1]
    split
    · rename_i hlin
      rw [mem_pySetAdd]
      constructor
      · rintro (h | rfl)
        · exact Or.inl h
        · exact Or.inr ⟨hlin, rfl⟩
      · rintro (h | ⟨-, rfl⟩)
        · exact Or.inl h
        · exact Or.inr rfl
    · rename_i hlin
      constructor
      · exact Or.inl
      · rintro (h | ⟨hl, -⟩)
        · exact h
        · exact absurd hl hlin
  refine ⟨?_, ?_, ?_⟩
  · split
    · exact hnd1.erase _
    · exact hnd1
  · split
    · exact fun hc => (List.Nodup.not_mem_erase hnd1) hc
    · rename_i hnl
      exact hnl
  · intro s
    have hcore : (s ∈ acc1 ∧ s ≠ "lm_head") ↔
        (s ≠ "lm_head" ∧ ∃ x ∈ done ++ [m], isLinear4bit x = true ∧
          lastSegment x.name = s) := by
      rw [hmem1 s]
      constructor
      · rintro ⟨h1 | ⟨hl, hs⟩, h2⟩
        · rcases (hmem s).mp h1 with ⟨hs', x, hx, hxl, hxs⟩
          exact ⟨h2, x, List.mem_append_left _ hx, hxl, hxs⟩
        · exact ⟨h2, m, List.mem_append_right _ (List.mem_singleton.mpr rfl),
            hl, hs⟩
      · rintro ⟨h2, x, hx, hxl, hxs⟩
        rcases List.mem_append.mp hx with hx | hx
        · exact ⟨Or.inl ((hmem s).mpr ⟨h2, x, hx, hxl, hxs⟩), h2⟩
        · rcases List.mem_singleton.mp hx with rfl
          exact ⟨Or.inr ⟨hxl, hxs⟩, h2⟩
    split
    · rename_i hin
      rw [List.Nodup.mem_erase_iff hnd1]
      constructor
      · rintro ⟨hne, hs⟩
        exact hcore.mp ⟨hs, hne⟩
      · intro h
        have := hcore.mpr h
        exact ⟨this.2, this.1⟩
    · rename_i hnin
      constructor
      · intro hs
        have hne : s ≠ "lm_head" := by
          rintro rfl; exact hnin hs
        exact hcore.mp ⟨hs, hne⟩
      · intro h
        exact (hcore.mpr h).1

/-- The loop establishes the invariant over the whole module list. -/
theorem famlnLoop_inv :
    ∀ (rest done : List NamedModule) (acc : List String),
      famlnInv done acc → famlnInv (done ++ rest) (famlnLoop rest acc)
  | [], done, acc, h => by simpa using h
  | m :: rest, done, acc, h => by
      have hstep := famlnInv_step h m
      have := famlnLoop_inv rest (done ++ [m]) _ hstep
      simpa [famlnLoop] using this

/-- `find_all_linear_names` satisfies the discovery invariant. -/
theorem find_all_linear_names_inv (model : List NamedModule) :
    famlnInv model (find_all_linear_names model) := by
  have h0 : famlnInv [] [] := by
    refine ⟨List.nodup_nil, by simp, ?_⟩
    intro s; simp
  simpa using famlnLoop_inv model [] [] h0

/-- C2: for every model, the target-module names returned by
`find_all_linear_names` never contain the output/head projection layer name
`lm_head` — in particular also when a module named (or ending in) `lm_head`
is itself a 4-bit linear module, and regardless of where it occurs in the
traversal order, since the statement quantifies over every module list. -/
theorem C2_find_all_linear_names_excludes_lm_head (model : List NamedModule) :
    "lm_head" ∉ find_all_linear_names model :=
  (find_all_linear_names_inv model).2.1

/-- C7: `find_all_linear_names` returns exactly the distinct last
dot-separated segments (the full name when it has no dot) of the names of
the 4-bit linear sublayers, minus the head-layer name `lm_head`; each
qualifying segment appears at most once in the result. -/
theorem C7_find_all_linear_names_characterisation (model : List NamedModule) :
    (find_all_linear_names model).Nodup ∧
      ∀ s, s ∈ find_all_linear_names model ↔
        (s ≠ "lm_head" ∧
          ∃ m ∈ model, isLinear4bit m = true ∧ lastSegment m.name = s) := by
  obtain ⟨h1, _, h3⟩ := find_all_linear_names_inv model
  exact ⟨h1, h3⟩

/-! ## §3.1 of the notebook: dataset transformation

The cell reads `data` from the dataset file and runs

```python
converted_data = []

for item in data:
    converted_item = {
v
    }
    converted_data.append(converted_item)
```

The loop body builds the set literal `{ v }`, whose single element expression
is the bare name `v`.  Python resolves a bare name against the local, global
and builtin namespaces; `v` is bound in none of them at this point of the
notebook, so evaluating the body raises `NameError`.
-/

/-- A Python runtime value, as far as the conversion loop can observe one:
an opaque library/function object (described by a tag), a set, a list, or a
string. -/
inductive PyValue where
  | extObj (desc : String)
  | pySet (elems : List PyValue)
  | pyList (elems : List PyValue)
  | pyStr (s : String)

/-- A Python exception raised by the embedded fragment. -/
inductive PyError where
  | nameError (name : String)
  deriving DecidableEq, Repr

/-- The names bound (in the notebook's global namespace or as the loop
variable) when the loop body of the conversion cell executes, in order of
first binding.  Python would additionally consult the builtins namespace,
none of whose members is the single-letter name `v` either. -/
def namesBoundAtConversionLoop : List String :=
  ["login", "hf_token", "torch", "BitsAndBytesConfig", "bnb_config",
   "AutoTokenizer", "AutoModelForCausalLM", "model", "tokenizer",
   "input_text", "input_ids", "outputs", "json", "pd", "dataset", "f",
   "data", "converted_data", "item"]

/-- Resolving a bare name: the bound value, or `NameError` when unbound. -/
def resolveName (env : List (String × PyValue)) (x : String) :
    Except PyError PyValue :=
  match env.find? (fun p => p.1 = x) with
  | some p => .ok p.2
  | none => .error (.nameError x)

/-- An environment binding exactly the names in scope at the loop, each to an
opaque object (the loop body never looks inside any of them). -/
def envAtConversionLoop : List (String × PyValue) :=
  namesBoundAtConversionLoop.map (fun n => (n, PyValue.extObj n))

/-- The loop body `converted_item = { v }`: evaluate the set literal, which
evaluates the bare name `v`. -/
def evalConvertedItemBody : Except PyError PyValue := do
  let vVal ← resolveName envAtConversionLoop "v"
  pure (PyValue.pySet [vVal])

/-- The conversion loop: one body evaluation per item of `data`, appending
each successful `converted_item` to the accumulator `converted_data`. -/
def conversionLoop : List PyValue → List PyValue → Except PyError (List PyValue)
  | [], converted_data => .ok converted_data
  | _ :: rest, converted_data =>
      match evalConvertedItemBody with
      | .error e => .error e
      | .ok converted_item => conversionLoop rest (converted_data ++ [converted_item])

/-- Running the conversion cell on the loaded `data`. -/
def runConversionCell (data : List PyValue) : Except PyError (List PyValue) :=
  conversionLoop data []

/-- C4: for every non-empty input array, the transformation loop raises
`NameError` for the unbound name `v` on the first item; no item is ever
projected into a record (the loop never returns successfully), so the
transformation step never completes. -/
theorem C4_conversion_loop_name_error (data : List PyValue) (h : data ≠ []) :
    runConversionCell data = .error (.nameError "v") ∧
      ∀ out, runConversionCell data ≠ .ok out := by
  obtain ⟨x, rest, rfl⟩ := List.exists_cons_of_ne_nil h
  have hbody : evalConvertedItemBody = .error (.nameError "v") := by rfl
  have hrun : runConversionCell (x :: rest) = .error (.nameError "v") := by
    simp [runConversionCell, conversionLoop, hbody]
  exact ⟨hrun, fun out hok => by rw [hrun] at hok; cases hok⟩

/-- Witness for C4 at the concrete one-item array `[ "x" ]`. -/
theorem C4_conversion_loop_name_error_witness :
    runConversionCell [PyValue.pyStr "x"] = .error (.nameError "v") ∧
      ∀ out, runConversionCell [PyValue.pyStr "x"] ≠ .ok out :=
  C4_conversion_loop_name_error [PyValue.pyStr "x"] (by simp)

/-! ## The `{prompt, completion}` record type and the per-item projection

The projection body itself is elided in the source (the cell's body is the
unbound name `v`, see above), so the projection is modelled from the spec.
-/

/-- A transformed example record, `{prompt: string, completion: string}`. -/
structure Record where
  prompt : String
  completion : String
  deriving DecidableEq, Repr

/-- A source dataset item, reduced to the material the projection consumes:
the item either supplies text for each of the two output fields or lacks
it. -/
structure SourceItem where
  promptSource : Option String
  completionSource : Option String
  deriving DecidableEq, Repr

/-- Modelled from the spec: the per-item projection body is elided in the
available source (spec §9: "the mapping body is elided in the available
material", and §4.2 forbids guessing the source schema).  Per the documented
contract (§4.2: "transformation is a pure per-item projection; if an item
lacks the fields needed for projection, the step fails for that item" and
§3's invariant "every record has a non-empty prompt and completion once
transformation succeeds"): the projection fails on an item that does not
supply non-empty material for both fields, and otherwise yields the
`{prompt, completion}` record carrying that material. -/
def projectItem (it : SourceItem) : Option Record :=
  match it.promptSource, it.completionSource with
  | some p, some c => if p = "" ∨ c = "" then none else some ⟨p, c⟩
  | _, _ => none

/-- The transformed dataset: the records of the successfully projected
items. -/
def convertDataset (data : List SourceItem) : List Record :=
  data.filterMap projectItem

/-! ## The intermediate dataset file

```python
output_file = '/content/dataset_2k_prompt_completion.json'

with open(output_file, 'w', encoding='utf-8') as f:
    json.dump(converted_data, f, indent=2, ensure_ascii=False)

main_df = pd.read_json('/content/dataset_2k_prompt_completion.json')
```

The file is modelled as the pair of the JSON document it holds (an array of
two-field string objects) and that document's rendered text, produced by an
embedding of `json.dump` for this document shape with `indent` and
`ensure_ascii` as in CPython's `json` module; `pd.read_json` is modelled as
decoding the held document back into records. -/

/-- A JSON document of the shape the intermediate file holds. -/
inductive Json where
  | str (s : String)
  | arr (elems : List Json)
  | obj (fields : List (String × Json))

/-- The JSON document for one record: an object with the `prompt` key first
and the `completion` key second (Python dicts preserve insertion order). -/
def encodeRecord (r : Record) : Json :=
  .obj [("prompt", .str r.prompt), ("completion", .str r.completion)]

/-- The JSON document for the converted dataset: the array of the records'
objects in order. -/
def encodeRecords (rs : List Record) : Json :=
  .arr (rs.map encodeRecord)

/-- Reading one row back from the tabular view: a two-field string object
with the expected keys yields the record, anything else fails. -/
def decodeRecord : Json → Option Record
  | .obj [("prompt", .str p), ("completion", .str c)] => some ⟨p, c⟩
  | _ => none

/-- Decoding the elements of the array one by one; any failure fails the
whole read. -/
def decodeJsonList : List Json → Option (List Record)
  | [] => some []
  | j :: rest =>
      match decodeRecord j, decodeJsonList rest with
      | some r, some rs => some (r :: rs)
      | _, _ => none

/-- `pd.read_json` on the intermediate document: every element of the array
must decode to a record. -/
def decodeRecords : Json → Option (List Record)
  | .arr es => decodeJsonList es
  | _ => none

theorem decodeRecord_encodeRecord (r : Record) :
    decodeRecord (encodeRecord r) = some r := by
  cases r; rfl

theorem decodeRecords_encodeRecords (rs : List Record) :
    decodeRecords (encodeRecords rs) = some rs := by
  induction rs with
  | nil => rfl
  | cons r rest ih =>
      simp only [encodeRecords, decodeRecords, List.map_cons, decodeJsonList,
        decodeRecord_encodeRecord] at *
      simp [ih]

/-! ### Rendering the document as `json.dump` does

`json.dump(converted_data, f, indent=2, ensure_ascii=False)` — embedded for
documents of the intermediate file's shape (an array of two-string-field
objects), following CPython's `json` module: with `ensure_ascii=False` only
`"`, `\\` and control characters below U+0020 are escaped; with
`ensure_ascii=True` additionally every character outside the printable ASCII
range U+0020..U+007E is written as a `\\uXXXX` escape (a surrogate pair
above U+FFFF).  A positive `indent` produces the pretty, newline-separated
form with `', '`/`': '` item and key separators reduced to `','`/`': '`. -/

/-- Opening brace character (U+007B). -/
def lbrace : Char := Char.ofNat 123

/-- Closing brace character (U+007D). -/
def rbrace : Char := Char.ofNat 125

/-- Lowercase hexadecimal digit, as CPython emits in `\uXXXX` escapes. -/
def hexDigitChar (n : Nat) : Char :=
  if n < 10 then Char.ofNat (48 + n) else Char.ofNat (97 + (n - 10))

/-- A four-digit `\uXXXX` escape for a code unit below 0x10000. -/
def uEscape4 (n : Nat) : List Char :=
  ['\\', 'u', hexDigitChar (n / 4096 % 16), hexDigitChar (n / 256 % 16),
   hexDigitChar (n / 16 % 16), hexDigitChar (n % 16)]

/-- The escape of one character inside a JSON string literal. -/
def escapeChar (ensureAscii : Bool) (c : Char) : List Char :=
  if c = '"' then ['\\', '"']
  else if c = '\\' then ['\\', '\\']
  else if c = '\n' then ['\\', 'n']
  else if c = '\t' then ['\\', 't']
  else if c = '\r' then ['\\', 'r']
  else if c.toNat = 8 then ['\\', 'b']
  else if c.toNat = 12 then ['\\', 'f']
  else if c.toNat < 32 then uEscape4 c.toNat
  else if ensureAscii && decide (126 < c.toNat) then
    if c.toNat < 65536 then uEscape4 c.toNat
    else
      uEscape4 (55296 + (c.toNat - 65536) / 1024) ++
        uEscape4 (56320 + (c.toNat - 65536) % 1024)
  else [c]

/-- A JSON string literal: quote, escaped characters, quote. -/
def renderString (ensureAscii : Bool) (s : String) : List Char :=
  '"' :: ((s.data.map (escapeChar ensureAscii)).flatten ++ ['"'])

/-- `n` spaces of indentation. -/
def nSpaces (n : Nat) : List Char := List.replicate n ' '

/-- One `"key": value` member with both strings rendered. -/
def renderMember (ea : Bool) (key value : String) : List Char :=
  renderString ea key ++ (':' :: ' ' :: renderString ea value)

/-- One record's object, at nesting depth `depth` (0-based), with
`indent = some k` the pretty form and `indent = none` the compact form. -/
def renderRecord (indent : Option Nat) (ea : Bool) (depth : Nat) (r : Record) :
    List Char :=
  match indent with
  | none =>
      lbrace :: (renderMember ea "prompt" r.prompt ++ (',' :: ' ' ::
        renderMember ea "completion" r.completion) ++ [rbrace])
  | some k =>
      let ind1 := nSpaces (k * (depth + 1))
      lbrace :: '\n' :: (ind1 ++ renderMember ea "prompt" r.prompt ++
        (',' :: '\n' :: ind1) ++ renderMember ea "completion" r.completion ++
        ('\n' :: nSpaces (k * depth)) ++ [rbrace])

/-- The top-level array of record objects. -/
def renderRecordsArray (indent : Option Nat) (ea : Bool) (rs : List Record) :
    List Char :=
  match rs with
  | [] => ['[', ']']
  | r0 :: rest =>
      match indent with
      | none =>
          '[' :: (renderRecord none ea 0 r0 ++
            (rest.map (fun r => ',' :: ' ' :: renderRecord none ea 0 r)).flatten ++
            [']'])
      | some k =>
          '[' :: (('\n' :: nSpaces k) ++ renderRecord (some k) ea 1 r0 ++
            (rest.map (fun r =>
              ',' :: '\n' :: (nSpaces k ++ renderRecord (some k) ea 1 r))).flatten ++
            ('\n' :: [']']))

/-- `json.dumps` of the converted dataset with the given `indent` and
`ensure_ascii` arguments. -/
def pyJsonDumpRecords (indent : Option Nat) (ea : Bool) (rs : List Record) :
    String :=
  ⟨renderRecordsArray indent ea rs⟩

/-- The fixed absolute path of the intermediate dataset file. -/
def output_file : String := "/content/dataset_2k_prompt_completion.json"

/-- An observed file write: the target path, the JSON document the file holds
afterwards, and the exact text written. -/
structure FileWrite where
  path : String
  doc : Json
  text : String

/-- The write of the intermediate dataset file:
`json.dump(converted_data, f, indent=2, ensure_ascii=False)` into
`open(output_file, 'w', encoding='utf-8')`. -/
def writeIntermediateFile (converted_data : List Record) : FileWrite :=
  { path := output_file
    doc := encodeRecords converted_data
    text := pyJsonDumpRecords (some 2) false converted_data }

/-- `main_df = pd.read_json(...)` on the intermediate file: the tabular view
of the file's document. -/
def readIntermediateFile (fw : FileWrite) : Option (List Record) :=
  decodeRecords fw.doc

theorem projectItem_fields_nonempty {it : SourceItem} {r : Record}
    (h : projectItem it = some r) : r.prompt ≠ "" ∧ r.completion ≠ "" := by
  obtain ⟨ps, cs⟩ := it
  cases ps with
  | none => simp [projectItem] at h
  | some p =>
      cases cs with
      | none => simp [projectItem] at h
      | some c =>
          simp only [projectItem] at h
          split at h
          · cases h
          · rename_i he
            cases h
            push_neg at he
            exact he

/-- C5: every successfully transformed record has non-empty `prompt` and
`completion` fields, and reading the written intermediate file back yields
exactly the list of records that was written (so in particular the same set
of records, order-insensitively). -/
theorem C5_projection_nonempty_and_roundtrip (data : List SourceItem) :
    (∀ r ∈ convertDataset data, r.prompt ≠ "" ∧ r.completion ≠ "") ∧
      readIntermediateFile (writeIntermediateFile (convertDataset data)) =
        some (convertDataset data) := by
  constructor
  · intro r hr
    rcases List.mem_filterMap.mp hr with ⟨it, _, hproj⟩
    exact projectItem_fields_nonempty hproj
  · exact decodeRecords_encodeRecords _

/-- Witness for C5: on a concrete two-item source (one complete item and one
missing its completion material), the converted dataset is the single record
`⟨"Act…", "What…"⟩`, its fields are non-empty, and the round trip through the
intermediate file returns it unchanged. -/
theorem C5_projection_nonempty_and_roundtrip_witness :
    Record.mk "Ask" "What is X?" ∈
        convertDataset [⟨some "Ask", some "What is X?"⟩, ⟨some "Ask", none⟩] ∧
      (Record.mk "Ask" "What is X?").prompt ≠ "" ∧
      (Record.mk "Ask" "What is X?").completion ≠ "" ∧
      readIntermediateFile (writeIntermediateFile
          (convertDataset [⟨some "Ask", some "What is X?"⟩, ⟨some "Ask", none⟩])) =
        some (convertDataset [⟨some "Ask", some "What is X?"⟩, ⟨some "Ask", none⟩]) := by
  have h := C5_projection_nonempty_and_roundtrip
    [⟨some "Ask", some "What is X?"⟩, ⟨some "Ask", none⟩]
  have hmem : Record.mk "Ask" "What is X?" ∈
      convertDataset [⟨some "Ask", some "What is X?"⟩, ⟨some "Ask", none⟩] := by
    decide
  exact ⟨hmem, (h.1 _ hmem).1, (h.1 _ hmem).2, h.2⟩

/-- The record shown in the notebook's own output of
`print(json.dumps(converted_data[0], indent=2, ensure_ascii=False))`. -/
def notebookExampleRecord : Record :=
  { prompt := "Act as a machine learning interviewer and formulate a question on Overfitting/Underfitting."
    completion := "What is the role of complexity in model performance?" }

set_option maxRecDepth 40000 in
/-- Fidelity check of the serializer against the notebook's stored output:
rendering the example record at depth 0 with `indent=2, ensure_ascii=False`
reproduces the printed block character for character. -/
theorem renderRecord_matches_notebook_output :
    renderRecord (some 2) false 0 notebookExampleRecord =
      ("\x7b\n  \"prompt\": \"Act as a machine learning interviewer and formulate a question on Overfitting/Underfitting.\",\n  \"completion\": \"What is the role of complexity in model performance?\"\n\x7d").data := by
  decide

set_option maxRecDepth 40000 in
/-- C9: the intermediate dataset file is written to the fixed absolute path
`/content/dataset_2k_prompt_completion.json` (absolute: its first character
is `/`) as a JSON array of the converted
records; the written text is pretty-printed (the concrete write below shows
the newline-and-indentation layout, and every non-empty write contains a
newline), and non-ASCII characters are written verbatim
(`escapeChar false` maps every printable character other than `"` and `\\`,
in particular every character above U+007E, to itself — whereas with
`ensure_ascii=True` the character `é` is escaped to `\\u00e9`). -/
theorem C9_intermediate_file_write :
    output_file.data.head? = some '/' ∧
      (∀ cs, (writeIntermediateFile cs).path = output_file ∧
        (writeIntermediateFile cs).doc = encodeRecords cs) ∧
      (writeIntermediateFile [⟨"é", "ok"⟩]).text =
        "[\n  \x7b\n    \"prompt\": \"é\",\n    \"completion\": \"ok\"\n  \x7d\n]" ∧
      (∀ r rs, '\n' ∈ (writeIntermediateFile (r :: rs)).text.data) ∧
      (∀ c : Char, 32 ≤ c.toNat → c ≠ '"' → c ≠ '\\' →
        escapeChar false c = [c]) ∧
      escapeChar true 'é' = ['\\', 'u', '0', '0', 'e', '9'] := by
  refine ⟨by decide, fun cs => ⟨rfl, rfl⟩, by decide, ?_, ?_, by decide⟩
  · intro r rs
    simp [writeIntermediateFile, pyJsonDumpRecords, renderRecordsArray, String.data]
  · intro c h32 hq hb
    have hn : c ≠ '\n' := by rintro rfl; exact absurd h32 (by decide)
    have ht : c ≠ '\t' := by rintro rfl; exact absurd h32 (by decide)
    have hr : c ≠ '\r' := by rintro rfl; exact absurd h32 (by decide)
    have h8 : ¬c.toNat = 8 := by omega
    have h12 : ¬c.toNat = 12 := by omega
    have hlt : ¬c.toNat < 32 := by omega
    unfold escapeChar
    rw [if_neg hq, if_neg hb, if_neg hn, if_neg ht, if_neg hr, if_neg h8,
      if_neg h12, if_neg hlt]
    simp

/-- Witness for C9: the escape-preservation conjunct applied at the concrete
non-ASCII character `é`. -/
theorem C9_intermediate_file_write_witness :
    escapeChar false 'é' = ['é'] :=
  C9_intermediate_file_write.2.2.2.2.1 'é' (by decide) (by decide) (by decide)

/-! ## §3.2 of the notebook: dataset splitting

```python
from sklearn.model_selection import train_test_split

train_data, temp_data = train_test_split(main_df, test_size=0.2, random_state=42)

eval_data, test_data = train_test_split(temp_data, test_size=0.5, random_state=42)
```

`train_test_split` is external library code, embedded from its documented
contract: the rows are shuffled by a pseudo-random permutation drawn from a
generator seeded with `random_state` (from the ambient global generator when
`random_state` is `None`), the first `n_test = ceil(test_size * n)` rows of
the shuffled order become the test side and the remaining `n - n_test` rows
the train side, and the call returns `(train, test)`.  The claims proved
below depend only on the shuffle being a length-preserving permutation that
is a pure function of the seed, so an LCG-driven Fisher-Yates shuffle stands
in for NumPy's MT19937 stream.  `test_size` is passed as the exact rational
`testNum/testDen` (the notebook's `0.2` and `0.5`; for every realistic `n`
the float computation `ceil(test_size * n)` agrees with the exact one). -/

theorem perm_get_cons_eraseIdx :
    ∀ (l : List α) (i : Nat) (h : i < l.length),
      (l.get ⟨i, h⟩ :: l.eraseIdx i).Perm l
  | _ :: _, 0, _ => by simp
  | a :: l, i + 1, h => by
      have hi : i < l.length := by simpa using Nat.lt_of_succ_lt_succ h
      have ih := perm_get_cons_eraseIdx l i hi
      have hswap : ((l.get ⟨i, hi⟩ :: a :: l.eraseIdx i).Perm
          (a :: l.get ⟨i, hi⟩ :: l.eraseIdx i)) := List.Perm.swap _ _ _
      simpa [List.eraseIdx] using hswap.trans (ih.cons a)

/-- One step of a 64-bit linear congruential generator (Knuth's MMIX
multiplier), the pseudo-random stream standing in for the seeded NumPy
generator. -/
def lcg (s : Nat) : Nat :=
  (6364136223846793005 * s + 1442695040888963407) % (2 ^ 64)

/-- Fisher-Yates: repeatedly draw the next pseudo-random index and move that
row to the front, recursing on the rest; `fuel` is the initial length. -/
def shuffleAux (s : Nat) : List α → Nat → List α
  | _, 0 => []
  | xs, fuel + 1 =>
      if h : 0 < xs.length then
        xs.get ⟨lcg s % xs.length, Nat.mod_lt _ h⟩ ::
          shuffleAux (lcg s) (xs.eraseIdx (lcg s % xs.length)) fuel
      else []

/-- The seeded shuffle of the rows. -/
def pyShuffle (seed : Nat) (xs : List α) : List α :=
  shuffleAux seed xs xs.length

theorem shuffleAux_perm :
    ∀ (fuel : Nat) (xs : List α) (s : Nat), xs.length ≤ fuel →
      (shuffleAux s xs fuel).Perm xs
  | 0, xs, s, h => by
      have hx : xs = [] := List.eq_nil_of_length_eq_zero (Nat.le_zero.mp h)
      simp [hx, shuffleAux]
  | fuel + 1, xs, s, h => by
      rw [shuffleAux]
      split
      · rename_i hpos
        have hi : lcg s % xs.length < xs.length := Nat.mod_lt _ hpos
        have hlen : (xs.eraseIdx (lcg s % xs.length)).length ≤ fuel := by
          have := List.length_eraseIdx_add_one hi
          omega
        have ih := shuffleAux_perm fuel (xs.eraseIdx (lcg s % xs.length)) (lcg s) hlen
        exact (ih.cons _).trans (perm_get_cons_eraseIdx xs _ hi)
      · rename_i hneg
        have hx : xs = [] := by
          cases xs with
          | nil => rfl
          | cons a l => exact absurd (by simp) hneg
        simp [hx]

theorem pyShuffle_perm (seed : Nat) (xs : List α) :
    (pyShuffle seed xs).Perm xs :=
  shuffleAux_perm xs.length xs seed le_rfl

theorem pyShuffle_length (seed : Nat) (xs : List α) :
    (pyShuffle seed xs).length = xs.length :=
  (pyShuffle_perm seed xs).length_eq

/-- `train_test_split(X, test_size=testNum/testDen, random_state)`:
`n_test = ceil(test_size * n)` (written over integers), the shuffled rows are
cut after the first `n_test` (the test side), and `(train, test)` is
returned.  `globalState` is the ambient generator state, consulted only when
`random_state` is `None`. -/
def train_test_split (xs : List α) (testNum testDen : Nat)
    (random_state : Option Nat) (globalState : Nat) : List α × List α :=
  let n := xs.length
  let nTest := (n * testNum + (testDen - 1)) / testDen
  let shuffled := pyShuffle (random_state.getD globalState) xs
  (shuffled.drop nTest, shuffled.take nTest)

/-- The four frames produced by the splitting cell. -/
structure SplitResult (α : Type) where
  train_data : List α
  temp_data : List α
  eval_data : List α
  test_data : List α
  deriving DecidableEq, Repr

/-- The splitting cell: an 80/20 cut of `main_df` with seed 42, then a 50/50
cut of the 20% remainder with seed 42. -/
def splitStage (main_df : List α) (globalState : Nat) : SplitResult α :=
  let p1 := train_test_split main_df 1 5 (some 42) globalState
  let p2 := train_test_split p1.2 1 2 (some 42) globalState
  ⟨p1.1, p1.2, p2.1, p2.2⟩

/-- Core facts about one `train_test_split` call: the two sides' lengths, and
train ++ test being a permutation of the input. -/
theorem train_test_split_spec (xs : List α) (num den : Nat)
    (rs : Option Nat) (gs : Nat) :
    (train_test_split xs num den rs gs).1.length =
        xs.length - (xs.length * num + (den - 1)) / den ∧
      (train_test_split xs num den rs gs).2.length =
        min ((xs.length * num + (den - 1)) / den) xs.length ∧
      ((train_test_split xs num den rs gs).1 ++
        (train_test_split xs num den rs gs).2).Perm xs := by
  refine ⟨?_, ?_, ?_⟩
  · show (List.drop _ _).length = _
    rw [List.length_drop, pyShuffle_length]
  · show (List.take _ _).length = _
    rw [List.length_take, pyShuffle_length]
  · show (List.drop _ _ ++ List.take _ _).Perm xs
    exact List.perm_append_comm.trans
      ((List.take_append_drop _ _).symm ▸ pyShuffle_perm _ xs)

/-- C3: with the fixed seed 42 the two-stage partitioning is deterministic —
it does not depend on the ambient generator state, so two runs on the same
dataset agree; the train, validation and test partition sizes are within one
element of 80%, 10% and 10% of the total
(`|size - p·n| ≤ 1` stated integrally as `|q·size - p·n·q| ≤ q`); and the
three partitions together are a permutation of the input frame, so no example
appears in more than one partition and none is dropped. -/
theorem C3_split_deterministic_sizes_partition (main_df : List α) (g g' : Nat) :
    splitStage main_df g = splitStage main_df g' ∧
      (5 * ((splitStage main_df g).train_data.length : Int) -
        4 * (main_df.length : Int)).natAbs ≤ 5 ∧
      (10 * ((splitStage main_df g).eval_data.length : Int) -
        (main_df.length : Int)).natAbs ≤ 10 ∧
      (10 * ((splitStage main_df g).test_data.length : Int) -
        (main_df.length : Int)).natAbs ≤ 10 ∧
      ((splitStage main_df g).train_data ++ (splitStage main_df g).eval_data ++
        (splitStage main_df g).test_data).Perm main_df := by
  obtain ⟨h1t, h1p, h1perm⟩ := train_test_split_spec main_df 1 5 (some 42) g
  obtain ⟨h2t, h2p, h2perm⟩ :=
    train_test_split_spec (train_test_split main_df 1 5 (some 42) g).2 1 2 (some 42) g
  have etrain : (splitStage main_df g).train_data =
      (train_test_split main_df 1 5 (some 42) g).1 := rfl
  have etemp : (splitStage main_df g).temp_data =
      (train_test_split main_df 1 5 (some 42) g).2 := rfl
  have eeval : (splitStage main_df g).eval_data =
      (train_test_split (train_test_split main_df 1 5 (some 42) g).2 1 2 (some 42) g).1 := rfl
  have etest : (splitStage main_df g).test_data =
      (train_test_split (train_test_split main_df 1 5 (some 42) g).2 1 2 (some 42) g).2 := rfl
  refine ⟨rfl, ?_, ?_, ?_, ?_⟩
  · rw [etrain, h1t]; omega
  · rw [eeval, h2t, h1p]; omega
  · rw [etest, h2p, h1p]; omega
  · rw [etrain, eeval, etest, List.append_assoc]
    exact ((h2perm.append_left _).trans h1perm)

/-! ## §4.5 of the notebook: training arguments and trainer construction

```python
train_dataset = Dataset.from_pandas(train_data)
eval_dataset = Dataset.from_pandas(temp_data)

training_arguments = TrainingArguments(
    output_dir="gemma-2b-FT_results",
    per_device_train_batch_size=8,
    gradient_accumulation_steps=1,
    optim="paged_adamw_8bit",
    learning_rate=2e-4,
    lr_scheduler_type="cosine",
    save_strategy="epoch",
    eval_strategy="steps",
    eval_steps=10,
    num_train_epochs=1,
    max_steps=250,
    fp16=True,
    logging_dir='./logs',
    logging_steps=10,
    report_to="tensorboard"
)

trainer = SFTTrainer(
    model=model,
    train_dataset=train_dataset,
    eval_dataset=eval_dataset,
    peft_config=lora_config,
    args=training_arguments
)
```
-/

/-- The training configuration surface the notebook sets. -/
structure TrainingArgumentsS where
  output_dir : String
  per_device_train_batch_size : Nat
  gradient_accumulation_steps : Nat
  optim : String
  learning_rate : ℚ
  lr_scheduler_type : String
  save_strategy : String
  eval_strategy : String
  eval_steps : Nat
  num_train_epochs : Nat
  max_steps : Int
  fp16 : Bool
  logging_dir : String
  logging_steps : Nat
  report_to : String
  deriving DecidableEq, Repr

/-- The concrete `TrainingArguments(...)` of the notebook. -/
def training_arguments : TrainingArgumentsS :=
  { output_dir := "gemma-2b-FT_results"
    per_device_train_batch_size := 8
    gradient_accumulation_steps := 1
    optim := "paged_adamw_8bit"
    learning_rate := 2 / 10000
    lr_scheduler_type := "cosine"
    save_strategy := "epoch"
    eval_strategy := "steps"
    eval_steps := 10
    num_train_epochs := 1
    max_steps := 250
    fp16 := true
    logging_dir := "./logs"
    logging_steps := 10
    report_to := "tensorboard" }

/-- `Dataset.from_pandas`: the rows of the frame, in order. -/
def Dataset_from_pandas (df : List α) : List α := df

/-- The observable inputs of the constructed `SFTTrainer`. -/
structure SFTTrainerS (α : Type) where
  train_dataset : List α
  eval_dataset : List α
  args : TrainingArgumentsS
  deriving DecidableEq, Repr

/-- The trainer as the notebook constructs it: `train_dataset` from
`train_data`, `eval_dataset` from `temp_data` (the whole 20% remainder of the
first cut — not from `eval_data`, which the notebook computes and never
uses). -/
def buildTrainer (main_df : List α) (g : Nat) : SFTTrainerS α :=
  { train_dataset := Dataset_from_pandas (splitStage main_df g).train_data
    eval_dataset := Dataset_from_pandas (splitStage main_df g).temp_data
    args := training_arguments }

/-- The test partition is always contained in the evaluation dataset the
trainer receives: `test_data` is cut out of `temp_data`, and `temp_data` is
what is passed as `eval_dataset`. -/
theorem test_data_mem_trainer_eval (main_df : List α) (g : Nat) :
    ∀ x ∈ (splitStage main_df g).test_data,
      x ∈ (buildTrainer main_df g).eval_dataset := by
  intro x hx
  have htake : x ∈ pyShuffle 42 (splitStage main_df g).temp_data :=
    List.mem_of_mem_take hx
  exact (pyShuffle_perm 42 _).mem_iff.mp htake

/-- C1: evaluating the trainer construction at the concrete ten-row frame
`[0, …, 9]`: the test partition is non-empty and every one of its examples is
contained in the evaluation dataset handed to the trainer — the notebook
passes `temp_data` (validation ∪ test) as `eval_dataset`, so the claim that
the trainer's evaluation data contains no test example fails. -/
theorem C1_trainer_eval_contains_test_example :
    (splitStage (List.range 10) 0).test_data ≠ [] ∧
      ∀ x ∈ (splitStage (List.range 10) 0).test_data,
        x ∈ (buildTrainer (List.range 10) 0).eval_dataset := by
  decide

/-! ## §4.6 of the notebook: the fixed-budget training run

`trainer.train()` delegates to the `transformers` training loop, embedded
from its documented step accounting: a positive `max_steps` *overrides*
`num_train_epochs` and training performs exactly `max_steps` optimizer steps
(cycling the data as needed), and a training-loss record is logged at every
global step divisible by `logging_steps`. -/

/-- The number of optimizer steps the training run performs, given how many
steps one pass over the training data provides. -/
def totalTrainingSteps (args : TrainingArgumentsS) (stepsPerEpoch : Nat) : Nat :=
  if args.max_steps > 0 then args.max_steps.toNat
  else args.num_train_epochs * stepsPerEpoch

/-- The global steps (1-based) at which a training-loss record is logged:
every `logging_steps`-th step of the run. -/
def loggedTrainLossSteps (args : TrainingArgumentsS) (stepsPerEpoch : Nat) :
    List Nat :=
  ((List.range (totalTrainingSteps args stepsPerEpoch)).map (· + 1)).filter
    (fun step => step % args.logging_steps = 0)

/-- C6 counterexample: at the notebook's configuration, with 500 steps per
epoch (so the one-epoch budget of 500 steps does not bind), the run
terminates at 250 steps but logs 25 training-loss records — not 250, as the
claim's "exactly that many" asserts. -/
theorem C6_logged_record_count_counterexample :
    totalTrainingSteps training_arguments 500 = 250 ∧
      (loggedTrainLossSteps training_arguments 500).length = 25 ∧
      (loggedTrainLossSteps training_arguments 500).length ≠ 250 := by
  decide

/-- C6 (amended): for every per-epoch step count, the run terminates at
exactly the configured `max_steps = 250` regardless of convergence (a
positive `max_steps` overrides the one-epoch budget, which therefore never
binds), and it produces exactly `max_steps / logging_steps = 25` logged
training-loss records, at the steps divisible by the logging interval 10. -/
theorem C6_fixed_budget_termination (stepsPerEpoch : Nat) :
    totalTrainingSteps training_arguments stepsPerEpoch = 250 ∧
      (loggedTrainLossSteps training_arguments stepsPerEpoch).length = 25 ∧
      ∀ s ∈ loggedTrainLossSteps training_arguments stepsPerEpoch,
        s % 10 = 0 ∧ s ≤ 250 := by
  have h : totalTrainingSteps training_arguments stepsPerEpoch = 250 := by
    simp [totalTrainingSteps, training_arguments]
  refine ⟨h, ?_, ?_⟩
  · unfold loggedTrainLossSteps
    rw [h]
    decide
  · unfold loggedTrainLossSteps
    rw [h]
    decide

/-! ## §5 of the notebook: save and merge

```python
trainer.model.save_pretrained(new_model)
...
base_model = AutoModelForCausalLM.from_pretrained(
    "google/gemma-2b-it",
    low_cpu_mem_usage=True,
    return_dict=True,
    torch_dtype=torch.float16,
    device_map={"": 0},
)

merged_model= PeftModel.from_pretrained(base_model, new_model)
merged_model= merged_model.merge_and_unload()

merged_model.save_pretrained("merged_model", safe_serialization=True)
```

The cell is straight-line: the adapter directory is applied to whatever base
model handle was just loaded; nothing compares the base model the adapter was
trained against with the base model being merged into. -/

/-- The directory name the fine-tuned adapter is saved under. -/
def new_model : String := "Gemma-2b_interview-FT"

/-- A loaded base model handle: its registry identifier and its (opaque)
weights. -/
structure BaseModel (W : Type) where
  modelId : String
  weights : W
  deriving Repr

/-- A saved adapter directory: its name, the identifier of the base model the
adapter weights were trained against (recorded by `peft` in the adapter
config), and the (opaque) adapter deltas. -/
structure AdapterDir (D : Type) where
  dirName : String
  baseModelId : String
  delta : D
  deriving Repr

/-- The outcome of `merge_and_unload`: a standalone model carrying the base
weights with the adapter deltas folded in. -/
structure MergedModel (W D : Type) where
  modelId : String
  baseWeights : W
  appliedDelta : D
  deriving Repr

/-- The error a validation guard would raise — never constructed by the
notebook's flow. -/
inductive MergeError where
  | baseModelMismatch (trainedAgainst mergedInto : String)
  deriving DecidableEq, Repr

/-- `PeftModel.from_pretrained(base_model, new_model)` followed by
`merge_and_unload()`, as the notebook performs it: the adapter deltas are
applied to whatever base handle is given.  No step inspects
`adapter.baseModelId`, so no `MergeError` is ever produced. -/
def saveAndMerge (base : BaseModel W) (adapter : AdapterDir D) :
    Except MergeError (MergedModel W D) :=
  .ok { modelId := base.modelId
        baseWeights := base.weights
        appliedDelta := adapter.delta }

/-- C8: for every base model handle and every saved adapter directory —
in particular when `adapter.baseModelId ≠ base.modelId` — the merge proceeds
without raising a mismatch error and folds the adapter deltas into the given
base's weights, so a mismatched base silently produces a merged model built
from the wrong base. -/
theorem C8_merge_never_validates_base {W D : Type}
    (base : BaseModel W) (adapter : AdapterDir D) :
    (∀ e, saveAndMerge base adapter ≠ .error e) ∧
      saveAndMerge base adapter =
        .ok { modelId := base.modelId
              baseWeights := base.weights
              appliedDelta := adapter.delta } := by
  refine ⟨fun e h => ?_, rfl⟩
  cases h

/-! ## §6 of the notebook: qualitative generation

```python
def get_completion(query:str, model, tokenizer) -> str:
  device = "cuda:0"

  prompt_template = """
  <start_of_turn>
   user
   {query}
   <end_of_turn>\n
   <start_of_turn>model
  """

  prompt = prompt_template.format(query=query)

  encodeds = tokenizer(prompt, return_tensors="pt", add_special_tokens=True)

  model_inputs = encodeds.to(device)

  generated_ids = model.generate(**model_inputs, max_new_tokens=1000, do_sample=True, pad_token_id=tokenizer.eos_token_id)

  decoded = tokenizer.decode(generated_ids[0], skip_special_tokens=True)

  return(decoded)
```

The tokenizer and `generate` are external library code, embedded from their
documented contracts.  The Gemma tokenizer treats `<start_of_turn>`,
`<end_of_turn>` and the added beginning/end-of-sequence tokens as special
tokens (each a single token id), and encodes other text as ids of ordinary
tokens; the embedding tokenizes ordinary text per character, which the
claims do not distinguish from subword pieces.  `tokenizer(...,
add_special_tokens=True)` with `add_eos_token=True` (how the notebook loaded
the tokenizer) prepends the BOS id and appends the EOS id.
`tokenizer.decode(..., skip_special_tokens=True)` drops every special token
id and concatenates the text of the rest — exactly what the notebook's own
stored output shows (the printed result has no turn markers).  For a
decoder-only model, each sequence returned by `model.generate` is the input
ids followed by the sampled continuation; sampling (`do_sample=True`) is an
external source of randomness, so the sampled continuations are a parameter
of the embedding. -/

/-- The user-turn marker, a special token of the tokenizer. -/
def startTurnMarker : String := "<start_of_turn>"

/-- The end-of-turn marker, a special token of the tokenizer. -/
def endTurnMarker : String := "<end_of_turn>"

/-- The literal `prompt_template` of `get_completion` (the `\n` escape inside
the triple-quoted string makes two consecutive newlines after the
end-of-turn line). -/
def prompt_template : String :=
  "\n  <start_of_turn>\n   user\n   {query}\n   <end_of_turn>\n\n   <start_of_turn>model\n  "

/-- The characters of the `{query}` placeholder after its opening brace. -/
def queryPlaceholderTail : List Char := "query".data ++ [rbrace]

/-- `str.format`-style replacement of every occurrence of the pattern
`p :: ps` by `rep`, scanning left to right and not rescanning replaced text;
structural on a fuel that the wrapper fixes to the scanned text's length
(enough fuel, since every step consumes at least one character). -/
def replaceAllAux (p : Char) (ps rep : List Char) : List Char → Nat → List Char
  | [], _ => []
  | _ :: _, 0 => []
  | c :: rest, fuel + 1 =>
      if (p :: ps).isPrefixOf (c :: rest) then
        rep ++ replaceAllAux p ps rep (rest.drop ps.length) fuel
      else c :: replaceAllAux p ps rep rest fuel

/-- Replacement of every occurrence of `p :: ps` by `rep` in `cs`. -/
def replaceAll (p : Char) (ps rep cs : List Char) : List Char :=
  replaceAllAux p ps rep cs cs.length

/-- `prompt = prompt_template.format(query=query)`. -/
def pyFormat (query : String) : String :=
  ⟨replaceAll lbrace queryPlaceholderTail query.data prompt_template.data⟩

/-- Token ids of the special tokens. -/
def bosId : Nat := 1

def eosId : Nat := 2

def startTurnId : Nat := 3

def endTurnId : Nat := 4

/-- Tokenizing the body of a text: turn markers become their special ids,
every other character an ordinary id above 255; structural on a fuel the
wrapper fixes to the text's length. -/
def tokenizeCharsAux : List Char → Nat → List Nat
  | [], _ => []
  | _ :: _, 0 => []
  | c :: rest, fuel + 1 =>
      if startTurnMarker.data.isPrefixOf (c :: rest) then
        startTurnId :: tokenizeCharsAux (rest.drop (startTurnMarker.data.length - 1)) fuel
      else if endTurnMarker.data.isPrefixOf (c :: rest) then
        endTurnId :: tokenizeCharsAux (rest.drop (endTurnMarker.data.length - 1)) fuel
      else (256 + c.toNat) :: tokenizeCharsAux rest fuel

/-- Tokenizing a whole text body. -/
def tokenizeChars (cs : List Char) : List Nat :=
  tokenizeCharsAux cs cs.length

/-- `tokenizer(prompt, add_special_tokens=True)` with `add_eos_token=True`:
BOS, the body, EOS. -/
def tokenize (s : String) : List Nat :=
  bosId :: (tokenizeChars s.data ++ [eosId])

/-- The text of one token id: with `skip` set, special ids contribute
nothing; ordinary ids decode back to their character. -/
def decodeToken (skip : Bool) (id : Nat) : List Char :=
  if id = bosId then (if skip then [] else "<bos>".data)
  else if id = eosId then (if skip then [] else "<eos>".data)
  else if id = startTurnId then (if skip then [] else startTurnMarker.data)
  else if id = endTurnId then (if skip then [] else endTurnMarker.data)
  else if 256 ≤ id then [Char.ofNat (id - 256)]
  else []

/-- `tokenizer.decode(ids, skip_special_tokens=skip)`. -/
def decode (skip : Bool) (ids : List Nat) : String :=
  ⟨(ids.map (decodeToken skip)).flatten⟩

/-- `model.generate(**model_inputs, ...)`: each returned sequence is the
input ids followed by one sampled continuation. -/
def generate (input_ids : List Nat) (sampled : List (List Nat)) :
    List (List Nat) :=
  sampled.map (fun cont => input_ids ++ cont)

/-- `get_completion(query, model, tokenizer)`, with the model's sampled
continuations as a parameter: format the prompt, tokenize it, generate, and
return the decoding of `generated_ids[0]` with special tokens stripped. -/
def get_completion (sampled : List (List Nat)) (query : String) : String :=
  let prompt := pyFormat query
  let encodeds := tokenize prompt
  let generated_ids := generate encodeds sampled
  decode true (generated_ids.headD [])

/-- A text with the two turn markers deleted (fuel-structural like the
tokenizer): what decoding its tokens with `skip_special_tokens=True`
reproduces. -/
def stripTurnMarkersAux : List Char → Nat → List Char
  | [], _ => []
  | _ :: _, 0 => []
  | c :: rest, fuel + 1 =>
      if startTurnMarker.data.isPrefixOf (c :: rest) then
        stripTurnMarkersAux (rest.drop (startTurnMarker.data.length - 1)) fuel
      else if endTurnMarker.data.isPrefixOf (c :: rest) then
        stripTurnMarkersAux (rest.drop (endTurnMarker.data.length - 1)) fuel
      else c :: stripTurnMarkersAux rest fuel

/-- A whole text with the two turn markers deleted. -/
def stripTurnMarkers (cs : List Char) : List Char :=
  stripTurnMarkersAux cs cs.length

/-- The formatted prompt as the decoder reproduces it: the turn markers (and
the added BOS/EOS) are stripped. -/
def strippedPrompt (query : String) : String :=
  ⟨stripTurnMarkers (pyFormat query).data⟩

theorem decodeToken_char (skip : Bool) (c : Char) :
    decodeToken skip (256 + c.toNat) = [c] := by
  have h1 : ¬(256 + c.toNat = bosId) := by unfold bosId; omega
  have h2 : ¬(256 + c.toNat = eosId) := by unfold eosId; omega
  have h3 : ¬(256 + c.toNat = startTurnId) := by unfold startTurnId; omega
  have h4 : ¬(256 + c.toNat = endTurnId) := by unfold endTurnId; omega
  have h5 : 256 ≤ 256 + c.toNat := by omega
  unfold decodeToken
  rw [if_neg h1, if_neg h2, if_neg h3, if_neg h4, if_pos h5]
  simp

/-- Decoding the tokenized body with special tokens skipped reproduces the
text with the turn markers deleted (fuel for fuel). -/
theorem decode_tokenizeCharsAux :
    ∀ (cs : List Char) (fuel : Nat),
      ((tokenizeCharsAux cs fuel).map (decodeToken true)).flatten =
        stripTurnMarkersAux cs fuel
  | [], fuel => by cases fuel <;> rfl
  | _ :: _, 0 => rfl
  | c :: rest, fuel + 1 => by
      simp only [tokenizeCharsAux, stripTurnMarkersAux]
      by_cases h1 : startTurnMarker.data.isPrefixOf (c :: rest) = true
      · rw [if_pos h1, if_pos h1]
        simp only [List.map_cons, List.flatten_cons]
        rw [show decodeToken true startTurnId = [] from rfl, List.nil_append]
        exact decode_tokenizeCharsAux _ fuel
      · rw [if_neg h1, if_neg h1]
        by_cases h2 : endTurnMarker.data.isPrefixOf (c :: rest) = true
        · rw [if_pos h2, if_pos h2]
          simp only [List.map_cons, List.flatten_cons]
          rw [show decodeToken true endTurnId = [] from rfl, List.nil_append]
          exact decode_tokenizeCharsAux _ fuel
        · rw [if_neg h2, if_neg h2]
          simp only [List.map_cons, List.flatten_cons, decodeToken_char]
          rw [decode_tokenizeCharsAux rest fuel]
          rfl

theorem String_mk_append (x y : List Char) :
    String.mk x ++ String.mk y = String.mk (x ++ y) := rfl

/-- Decoding with `skip_special_tokens=True` turns the full tokenization of
a text (BOS, body, EOS) into the text stripped of its turn markers. -/
theorem decode_tokenize (s : String) :
    decode true (tokenize s) = ⟨stripTurnMarkers s.data⟩ := by
  simp only [tokenize, decode, List.map_cons, List.map_append, List.flatten_cons,
    List.flatten_append, show decodeToken true bosId = [] from rfl,
    show decodeToken true eosId = [] from rfl, tokenizeChars]
  rw [decode_tokenizeCharsAux s.data s.data.length]
  simp [stripTurnMarkers]

theorem decode_append (skip : Bool) (a b : List Nat) :
    decode skip (a ++ b) = decode skip a ++ decode skip b := by
  unfold decode
  rw [String_mk_append]
  exact congrArg String.mk (by simp)

theorem isPrefixOf_append_self (l t : List Char) :
    l.isPrefixOf (l ++ t) = true := by
  simp [List.isPrefixOf_iff_prefix, List.prefix_append]

/-- C10 (amended): for every query and every non-empty batch of sampled
continuations, `get_completion` returns the decoding of only the first
generated sequence with special tokens stripped, and that string is the
formatted prompt *with its special turn markers stripped* followed by the
decoded continuation — so the caller receives the prompt text plus the
continuation, not the newly generated completion alone, but the literal
formatted template is not its prefix (its markers are special tokens removed
by the decoding). -/
theorem C10_get_completion_stripped_prompt_prefix (query : String)
    (sampled : List (List Nat)) (cont : List Nat)
    (h : sampled.head? = some cont) :
    get_completion sampled query = strippedPrompt query ++ decode true cont ∧
      (strippedPrompt query).data.isPrefixOf
        (get_completion sampled query).data = true := by
  have hfirst : (generate (tokenize (pyFormat query)) sampled).headD [] =
      tokenize (pyFormat query) ++ cont := by
    cases sampled with
    | nil => cases h
    | cons s ss =>
        have hs : s = cont := Option.some.inj h
        subst hs
        rfl
  have heq : get_completion sampled query =
      strippedPrompt query ++ decode true cont := by
    show decode true ((generate (tokenize (pyFormat query)) sampled).headD []) = _
    rw [hfirst, decode_append, decode_tokenize]
    rfl
  refine ⟨heq, ?_⟩
  rw [heq]
  rw [show (strippedPrompt query ++ decode true cont).data =
      (strippedPrompt query).data ++ (decode true cont).data from rfl]
  exact isPrefixOf_append_self _ _

/-- Witness for C10 (amended) at the notebook's query and an empty sampled
continuation. -/
theorem C10_get_completion_stripped_prompt_prefix_witness :
    get_completion [[]] "Ask a question about Overfitting/Underfitting." =
        strippedPrompt "Ask a question about Overfitting/Underfitting." ++
          decode true [] ∧
      (strippedPrompt "Ask a question about Overfitting/Underfitting.").data.isPrefixOf
        (get_completion [[]] "Ask a question about Overfitting/Underfitting.").data =
        true :=
  C10_get_completion_stripped_prompt_prefix
    "Ask a question about Overfitting/Underfitting." [[]] [] rfl

set_option maxRecDepth 100000 in
/-- C10 counterexample: at the notebook's own query, the formatted prompt
template (which contains the literal `<start_of_turn>` marker) is *not* a
prefix of the string `get_completion` returns, because decoding strips the
special turn markers — as the notebook's stored output also shows. -/
theorem C10_formatted_prompt_not_prefix_counterexample :
    (pyFormat "Ask a question about Overfitting/Underfitting.").data.isPrefixOf
      (get_completion [[]] "Ask a question about Overfitting/Underfitting.").data =
      false := by
  decide
